import Mathlib

/-!
# Content Library resource of the VCFA Terraform provider

A shallow embedding of `vcfa/resource_vcfa_content_library.go`.

* Go strings are Lean strings; the functions of the Go `strings` package the
  resource uses (`Index`, `Count`, `Contains`, `Split`, `EqualFold`) are
  modelled on the list of runes of a string, which agrees with the bytes of
  Go for valid UTF-8.
* `*schema.ResourceData` is a record with one field per attribute of the
  schema plus the resource ID; the resource functions pass it explicitly.
* The remote client is an arbitrary family of functions of the history of
  calls made so far; every resource function returns, next to its Go result,
  the final `ResourceData` and the history extended with the calls it made.
-/

set_option linter.dupNamespace false

namespace vcfa

/-! ## The Go `strings` package -/

namespace strings

/-- Go `strings.HasPrefix` on runes. -/
def hasPrefixRunes : List Char → List Char → Bool
  | _, [] => true
  | [], _ :: _ => false
  | c :: cs, p :: ps => c == p && hasPrefixRunes cs ps

/-- Go `strings.Index` on runes: the offset of the first occurrence of `sep`
in `s`, `none` standing for `-1`. -/
def indexRunes : List Char → List Char → Option Nat
  | [], sep => if sep.isEmpty then some 0 else none
  | c :: cs, sep =>
    if hasPrefixRunes (c :: cs) sep then some 0
    else (indexRunes cs sep).map (· + 1)

/-- The loop of Go `strings.Count` for a non-empty `substr`:
`for { i := Index(s, substr); if i == -1 { return n }; n++; s = s[i+len(substr):] }`.
The fuel bounds the number of iterations; the length of `s` is always enough. -/
def countLoop (substr : List Char) : Nat → List Char → Nat
  | 0, _ => 0
  | fuel + 1, s =>
    match indexRunes s substr with
    | none => 0
    | some i => countLoop substr fuel (s.drop (i + substr.length)) + 1

/-- Go `strings.Count` on runes. -/
def countRunes (s substr : List Char) : Nat :=
  if substr.isEmpty then s.length + 1 else countLoop substr s.length s

/-- The loop of Go `strings.genSplit` (with `sepSave = 0`), run for at most `n`
iterations:
`for i < n { m := Index(s, sep); if m < 0 { break }; a[i] = s[:m]; s = s[m+len(sep):]; i++ }; a[i] = s`. -/
def splitLoop (sep : List Char) : Nat → List Char → List (List Char)
  | 0, s => [s]
  | n + 1, s =>
    match indexRunes s sep with
    | none => [s]
    | some m => s.take m :: splitLoop sep n (s.drop (m + sep.length))

/-- Go `strings.genSplit(s, sep, 0, -1)` on runes: an empty separator explodes
the string into its runes, otherwise `n = Count(s, sep) + 1` pieces are cut
(`n` never exceeds `len(s) + 1` then, so that the clamp of `n` does not apply). -/
def genSplit (s sep : List Char) : List (List Char) :=
  if sep.isEmpty then s.map (fun c => [c])
  else splitLoop sep (countRunes s sep) s

/-- Go `strings.Index`. -/
def Index (s substr : String) : Option Nat := indexRunes s.data substr.data

/-- Go `strings.Contains`: `Index(s, substr) >= 0`. -/
def Contains (s substr : String) : Bool := (Index s substr).isSome

/-- Go `strings.Split`. -/
def Split (s sep : String) : List String := (genSplit s.data sep.data).map String.mk

/-- Go `unicode.SimpleFold` on the orbits of the ASCII runes: a letter and its
other case, plus the Kelvin sign (orbit of `k`) and the long s (orbit of `s`).
Runes outside these orbits are left alone, so the table is exact whenever the
rune it is iterated from is ASCII. -/
def SimpleFold (r : Nat) : Nat :=
  if r = 0x4B then 0x6B
  else if r = 0x6B then 0x212A
  else if r = 0x212A then 0x4B
  else if r = 0x53 then 0x73
  else if r = 0x73 then 0x17F
  else if r = 0x17F then 0x53
  else if 0x41 ≤ r ∧ r ≤ 0x5A then r + 0x20
  else if 0x61 ≤ r ∧ r ≤ 0x7A then r - 0x20
  else r

/-- The inner loop of `EqualFold`: `for r != sr && r < tr { r = unicode.SimpleFold(r) }`. -/
def foldLoop (sr tr : Nat) : Nat → Nat → Nat
  | 0, r => r
  | fuel + 1, r => if r ≠ sr ∧ r < tr then foldLoop sr tr fuel (SimpleFold r) else r

/-- One step of the rune loop of Go `strings.EqualFold`: are the runes `a` and
`b` equal under simple case folding. -/
def equalFoldRune (a b : Nat) : Bool :=
  if a = b then true
  else
    let sr := min a b
    let tr := max a b
    if tr < 0x80 then decide (0x41 ≤ sr ∧ sr ≤ 0x5A ∧ tr = sr + 0x20)
    else decide (foldLoop sr tr 4 (SimpleFold sr) = tr)

/-- Go `strings.EqualFold` on runes. -/
def equalFoldRunes : List Char → List Char → Bool
  | [], [] => true
  | a :: as, b :: bs => equalFoldRune a.toNat b.toNat && equalFoldRunes as bs
  | _, _ => false

/-- Go `strings.EqualFold`: equality under Unicode simple case folding. -/
def EqualFold (s t : String) : Bool := equalFoldRunes s.data t.data

end strings

/-! ## Types of the client library and of the Terraform SDK -/

/-- A Go `error`, represented by the message its `Error()` method returns. -/
abbrev Error := String

namespace types

/-- Fields of `types.OpenApiReference`. -/
structure OpenApiReference where
  Name : String
  ID : String
  deriving DecidableEq, Repr

/-- Fields of `types.ContentLibrarySubscriptionConfig` the resource uses. -/
structure ContentLibrarySubscriptionConfig where
  SubscriptionUrl : String
  Password : String
  deriving DecidableEq, Repr

/-- Fields of `types.ContentLibrary` the resource uses. A pointer field is an
`Option`, `none` being `nil`. -/
structure ContentLibrary where
  Name : String
  Description : String
  AutoAttach : Bool
  StorageClasses : List OpenApiReference
  SubscriptionConfig : Option ContentLibrarySubscriptionConfig
  ID : String
  CreationDate : String
  IsShared : Bool
  IsSubscribed : Bool
  LibraryType : String
  VersionNumber : Int
  Org : Option OpenApiReference
  deriving DecidableEq, Repr

/-- Fields of `types.TmOrg` the resource uses. -/
structure TmOrg where
  ID : String
  Name : String
  deriving DecidableEq, Repr

end types

namespace govcd

/-- The struct `govcd.TenantContext`. -/
structure TenantContext where
  OrgId : String
  OrgName : String
  deriving DecidableEq, Repr

/-- The struct `govcd.ContentLibrary`: a wrapper around a pointer to the type. -/
structure ContentLibrary where
  ContentLibrary : Option types.ContentLibrary
  deriving DecidableEq, Repr

/-- The struct `govcd.TmOrg`: a wrapper around a pointer to the type. -/
structure TmOrg where
  TmOrg : Option types.TmOrg
  deriving DecidableEq, Repr

/-- The message of `govcd.ErrorEntityNotFound`. -/
def ErrorEntityNotFound : Error := "[ENF] entity not found"

/-- Go `govcd.ContainsNotFound`:
`err != nil && strings.Contains(err.Error(), ErrorEntityNotFound.Error())`. -/
def ContainsNotFound (err : Option Error) : Bool :=
  match err with
  | none => false
  | some e => strings.Contains e ErrorEntityNotFound

end govcd

namespace diag

/-- Severity of a Terraform diagnostic. -/
inductive Severity where
  | Error
  | Warning
  deriving DecidableEq, Repr

/-- A Terraform diagnostic. -/
structure Diagnostic where
  Severity : Severity
  Summary : String
  deriving DecidableEq, Repr

/-- Go `diag.Diagnostics`; the empty list is `nil`. -/
abbrev Diagnostics := List Diagnostic

/-- Go `diag.FromErr`: nothing for a nil error, otherwise one diagnostic of
severity `Error` whose summary is the message of the error. -/
def FromErr (err : Option Error) : Diagnostics :=
  match err with
  | none => []
  | some e => [{ Severity := Severity.Error, Summary := e }]

/-- Go `Diagnostics.HasError`. -/
def HasError (ds : Diagnostics) : Bool :=
  ds.any fun x => x.Severity == Severity.Error

end diag

/-- What a Go function call ends with: it returns a value, or it panics (a nil
pointer dereference). -/
inductive GoResult (α : Type) where
  | returned (v : α)
  | panicked
  deriving DecidableEq, Repr

/-! ## Resource data -/

/-- One `subscription_config` block as stored by `d.Set`; `password` is `none`
when the map written has no `password` entry. -/
structure SubscriptionConfigBlock where
  subscription_url : String
  password : Option String
  deriving DecidableEq, Repr

/-- The `*schema.ResourceData` of a `vcfa_content_library`: the resource ID and
one field per attribute of the schema. The set `storage_class_ids` is the list
of its members. -/
structure ResourceData where
  Id : String
  name : String
  org_id : String
  delete_force : Bool
  delete_recursive : Bool
  storage_class_ids : List String
  auto_attach : Bool
  creation_date : String
  description : String
  is_shared : Bool
  is_subscribed : Bool
  library_type : String
  subscription_config : List SubscriptionConfigBlock
  version_number : Int
  deriving DecidableEq, Repr

namespace ResourceData

/-- Go `d.SetId`. -/
def SetId (d : ResourceData) (id : String) : ResourceData := { d with Id := id }

/-- Go `d.Get("subscription_config.0.password")`: the password of the first
block, the zero value when there is no block or no password in it. -/
def Get_subscription_config_0_password (d : ResourceData) : String :=
  match d.subscription_config with
  | [] => ""
  | b :: _ => b.password.getD ""

end ResourceData

/-! ## The client and the history of its calls -/

/-- The calls the resource makes on the client. -/
inductive Call where
  | getTenantContextFromOrgId (orgId : String)
  | CreateContentLibrary (config : types.ContentLibrary) (ctx : Option govcd.TenantContext)
  | GetContentLibraryById (id : String) (ctx : Option govcd.TenantContext)
  | GetContentLibraryByName (name : String) (ctx : Option govcd.TenantContext)
  | GetTmOrgByName (name : String)
  | Update (cl : govcd.ContentLibrary) (config : types.ContentLibrary)
  | Delete (cl : govcd.ContentLibrary) (force : Bool) (recursive : Bool)
  deriving DecidableEq, Repr

/-- A call together with the error it returned (`none` for a nil error). -/
structure Event where
  call : Call
  err : Option Error
  deriving DecidableEq, Repr

/-- The history of the calls made on the client, oldest first. -/
abbrev Trace := List Event

/-- A behaviour of the client (`tmClient` and the objects it hands out): what
each call returns, as a function of the calls made before it and of its
arguments. A Go result `(ptr, err)` is `Except.error err` or `Except.ok ptr`,
where `ptr` may be nil (`none`). `getTenantContextFromOrgId` is a helper of the
provider declared in another file; it resolves an organization ID through the
client. -/
structure Client where
  getTenantContextFromOrgId : Trace → String → Except Error (Option govcd.TenantContext)
  CreateContentLibrary : Trace → types.ContentLibrary → Option govcd.TenantContext →
    Except Error (Option govcd.ContentLibrary)
  GetContentLibraryById : Trace → String → Option govcd.TenantContext →
    Except Error (Option govcd.ContentLibrary)
  GetContentLibraryByName : Trace → String → Option govcd.TenantContext →
    Except Error (Option govcd.ContentLibrary)
  GetTmOrgByName : Trace → String → Except Error (Option govcd.TmOrg)
  Update : Trace → govcd.ContentLibrary → types.ContentLibrary →
    Except Error (Option govcd.ContentLibrary)
  Delete : Trace → govcd.ContentLibrary → Bool → Bool → Except Error Unit

/-- The error of a Go result, `none` when it is nil. -/
def errOf {α : Type} (r : Except Error α) : Option Error :=
  match r with
  | .error e => some e
  | .ok _ => none

/-- Performs a call: the result comes with the history extended by the call. -/
def logged {α : Type} (h : Trace) (call : Call) (r : Except Error α) : Except Error α × Trace :=
  (r, h ++ [{ call := call, err := errOf r }])

/-- Values declared in other files of the package. -/
structure Globals where
  ImportSeparator : String
  labelVcfaOrg : String
  labelVcfaContentLibraryItem : String
  labelVcfaStorageClass : String

/-- The constant `labelVcfaContentLibrary`. -/
def labelVcfaContentLibrary : String := "Content Library"

/-! ## The schema -/

namespace schema

/-- Go `schema.ValueType`, the members the resource uses. -/
inductive ValueType where
  | TypeBool
  | TypeInt
  | TypeString
  | TypeList
  | TypeSet
  deriving DecidableEq, Repr

/-- A value of a `Default` field. -/
inductive DefaultValue where
  | bool (b : Bool)
  | int (i : Int)
  | string (s : String)
  deriving DecidableEq, Repr

/-- Go `schema.Schema`, the fields the resource sets; an unset field has its
zero value. `ε` is the type of what `Elem` points to. -/
structure Schema (ε : Type) where
  Type_ : ValueType
  Required : Bool := false
  Optional : Bool := false
  Computed : Bool := false
  ForceNew : Bool := false
  Sensitive : Bool := false
  Default : Option DefaultValue := none
  MaxItems : Nat := 0
  Description : String
  Elem : Option ε := none

/-- What the `Elem` of an attribute points to: a schema of the elements, or a
resource, given by its schema map, for a block. -/
inductive Elem where
  | Schema (s : Schema Empty)
  | Resource (fields : List (String × Schema Empty))

/-- Go `schema.Resource`: the schema map, as the list of its entries. The
callbacks `CreateContext`, `ReadContext`, `UpdateContext`, `DeleteContext` and
`Importer.StateContext` are the functions defined below. -/
structure Resource where
  Schema : List (String × Schema Elem)

end schema

/-- Go `resourceVcfaContentLibrary`: the schema of `vcfa_content_library`. -/
def resourceVcfaContentLibrary (g : Globals) : schema.Resource :=
  { Schema := [
      ("name", {
        Type_ := .TypeString,
        Required := true,
        Description := "The name of the " ++ labelVcfaContentLibrary }),
      ("org_id", {
        Type_ := .TypeString,
        Required := true,
        ForceNew := true,
        Description := "The reference to the " ++ g.labelVcfaOrg ++ " that the " ++
          labelVcfaContentLibrary ++ " belongs to" }),
      ("delete_force", {
        Type_ := .TypeBool,
        Optional := true,
        Description := "On deletion, forcefully deletes the " ++ labelVcfaContentLibrary ++
          " and its " ++ g.labelVcfaContentLibraryItem ++
          "s. Only for PROVIDER Content Libraries" }),
      ("delete_recursive", {
        Type_ := .TypeBool,
        Optional := true,
        Description := "On deletion, deletes the " ++ labelVcfaContentLibrary ++
          ", including its " ++ g.labelVcfaContentLibraryItem ++ "s, in a single operation" }),
      ("storage_class_ids", {
        Type_ := .TypeSet,
        Required := true,
        Description := "A set of " ++ g.labelVcfaStorageClass ++ " IDs used by this " ++
          labelVcfaContentLibrary,
        Elem := some (.Schema { Type_ := .TypeString, Description := "" }) }),
      ("auto_attach", {
        Type_ := .TypeBool,
        Optional := true,
        Default := some (.bool true),
        ForceNew := true,
        Description := "For Tenant Content Libraries this field represents whether this " ++
          labelVcfaContentLibrary ++ " should be " ++
          "automatically attached to all current and future namespaces in the " ++
          g.labelVcfaOrg ++ ". If no value is " ++
          "supplied during creation then this field will default to true. If a value of false is supplied, " ++
          "then this Tenant " ++ labelVcfaContentLibrary ++
          " will only be attached to namespaces that explicitly request it. " ++
          "For Provider Content Libraries this field is not needed for creation and will always be returned as true. " ++
          "This field cannot be updated after creation" }),
      ("creation_date", {
        Type_ := .TypeString,
        Computed := true,
        Description := "The ISO-8601 timestamp representing when this " ++
          labelVcfaContentLibrary ++ " was created" }),
      ("description", {
        Type_ := .TypeString,
        Optional := true,
        Computed := true,
        Description := "The description of the " ++ labelVcfaContentLibrary }),
      ("is_shared", {
        Type_ := .TypeBool,
        Computed := true,
        Description := "Whether this " ++ labelVcfaContentLibrary ++ " is shared with other " ++
          g.labelVcfaOrg ++ "s" }),
      ("is_subscribed", {
        Type_ := .TypeBool,
        Computed := true,
        Description := "Whether this " ++ labelVcfaContentLibrary ++
          " is subscribed from an external published library" }),
      ("library_type", {
        Type_ := .TypeString,
        Computed := true,
        Description := "The type of " ++ labelVcfaContentLibrary ++
          ", can be either PROVIDER (" ++ labelVcfaContentLibrary ++ " that is scoped to a " ++
          "provider) or TENANT (" ++ labelVcfaContentLibrary ++
          " that is scoped to a tenant organization)" }),
      ("subscription_config", {
        Type_ := .TypeList,
        MaxItems := 1,
        Optional := true,
        Description := "A block representing subscription settings of a " ++
          labelVcfaContentLibrary,
        Elem := some (.Resource [
          ("subscription_url", {
            Type_ := .TypeString,
            Required := true,
            ForceNew := true,
            Description := "Subscription url of this " ++ labelVcfaContentLibrary }),
          ("password", {
            Type_ := .TypeString,
            Optional := true,
            Sensitive := true,
            Description := "Password to use to authenticate with the publisher" })]) }),
      ("version_number", {
        Type_ := .TypeInt,
        Computed := true,
        Description := "Version number of this " ++ labelVcfaContentLibrary })] }

namespace schema

/-- The attributes of a block: the entries of the schema map of the resource
its `Elem` points to. -/
def blockFields (s : Schema Elem) : List (String × Schema Empty) :=
  match s.Elem with
  | some (.Resource fields) => fields
  | _ => []

/-- The paths of the attributes of a resource that satisfy `p`: the top-level
attributes by their name, the attributes of a block by `block.name`. -/
def attributesWhere (p : {ε : Type} → Schema ε → Bool) (r : Resource) : List String :=
  r.Schema.flatMap fun kv =>
    (if p kv.2 then [kv.1] else []) ++
      (blockFields kv.2).filterMap fun kv2 =>
        if p kv2.2 then some (kv.1 ++ "." ++ kv2.1) else none

/-- The names of the top-level attributes of a resource that satisfy `p`. -/
def topLevelWhere (p : Schema Elem → Bool) (r : Resource) : List String :=
  (r.Schema.filter fun kv => p kv.2).map fun kv => kv.1

/-- The schema of a top-level attribute: the lookup in the schema map. -/
def attributeOf (r : Resource) (name : String) : Option (Schema Elem) :=
  (r.Schema.find? fun kv => kv.1 == name).map fun kv => kv.2

end schema

/-! ## The resource functions -/

/-- Modelled from the spec: `convertSliceOfStringsToOpenApiReferenceIds`, a
helper of the provider declared in another file, turns every ID into a
reference that carries it. -/
def convertSliceOfStringsToOpenApiReferenceIds (ids : List String) : List types.OpenApiReference :=
  ids.map fun id => { Name := "", ID := id }

/-- Go `getContentLibraryType`. `d.GetOk("subscription_config")` is ok when the
list has a block; a block read from the state has the zero value for a password
it does not carry. -/
def getContentLibraryType (d : ResourceData) : types.ContentLibrary :=
  let t : types.ContentLibrary :=
    { Name := d.name,
      Description := d.description,
      AutoAttach := d.auto_attach,
      StorageClasses := convertSliceOfStringsToOpenApiReferenceIds d.storage_class_ids,
      SubscriptionConfig := none,
      ID := "",
      CreationDate := "",
      IsShared := false,
      IsSubscribed := false,
      LibraryType := "",
      VersionNumber := 0,
      Org := none }
  match d.subscription_config with
  | [] => t
  | subsConfig :: _ =>
    { t with
      SubscriptionConfig := some ⟨subsConfig.subscription_url, subsConfig.password.getD ""⟩ }

/-- Go `setContentLibraryData`: the error returned (`none` for nil) and the
resource data it leaves. The values written are of the type of their attribute,
so that `dSet` does not panic and `d.Set` returns no error. -/
def setContentLibraryData (d : ResourceData) (cl : Option govcd.ContentLibrary)
    (origin : String) : Option Error × ResourceData :=
  match cl with
  | none => (some ("provided " ++ labelVcfaContentLibrary ++ " is nil"), d)
  | some { ContentLibrary := none } =>
    (some ("provided " ++ labelVcfaContentLibrary ++ " is nil"), d)
  | some { ContentLibrary := some l } =>
    let d := { d with name := l.Name }
    let d := { d with auto_attach := l.AutoAttach }
    let d := { d with creation_date := l.CreationDate }
    let d := { d with description := l.Description }
    let d := { d with is_shared := l.IsShared }
    let d := { d with is_subscribed := l.IsSubscribed }
    let d := { d with library_type := l.LibraryType }
    let d := { d with version_number := l.VersionNumber }
    let d := match l.Org with
      | some org => { d with org_id := org.ID }
      | none => d
    let scs := l.StorageClasses.map fun sc => sc.ID
    let d := { d with storage_class_ids := scs }
    let subscriptionConfig : List SubscriptionConfigBlock :=
      match l.SubscriptionConfig with
      | none => []
      | some sc =>
        let block : SubscriptionConfigBlock :=
          { subscription_url := sc.SubscriptionUrl, password := none }
        if origin = "resource" then
          let p := d.Get_subscription_config_0_password
          if p ≠ "" then [{ block with password := some p }] else [block]
        else [block]
    let d := { d with subscription_config := subscriptionConfig }
    (none, d.SetId l.ID)

/-- What a CRUD function leaves: its Go result, the resource data and the
history of the client. -/
abbrev CrudResult := GoResult diag.Diagnostics × ResourceData × Trace

/-- Go `resourceVcfaContentLibraryRead`. -/
def resourceVcfaContentLibraryRead (tmClient : Client) (d : ResourceData) (h : Trace) :
    CrudResult :=
  match logged h (.getTenantContextFromOrgId d.org_id)
      (tmClient.getTenantContextFromOrgId h d.org_id) with
  | (.error err, h) => (.returned (diag.FromErr (some err)), d, h)
  | (.ok tenantContext, h) =>
    let idOrName := d.Id
    let (r, h) :=
      if idOrName ≠ "" then
        logged h (.GetContentLibraryById idOrName tenantContext)
          (tmClient.GetContentLibraryById h idOrName tenantContext)
      else
        logged h (.GetContentLibraryByName d.name tenantContext)
          (tmClient.GetContentLibraryByName h d.name tenantContext)
    let d := if govcd.ContainsNotFound (errOf r) then d.SetId "" else d
    match r with
    | .error err => (.returned (diag.FromErr (some err)), d, h)
    | .ok cl =>
      match setContentLibraryData d cl "resource" with
      | (some err, d) => (.returned (diag.FromErr (some err)), d, h)
      | (none, d) => (.returned [], d, h)

/-- Go `resourceVcfaContentLibraryCreate`. -/
def resourceVcfaContentLibraryCreate (tmClient : Client) (d : ResourceData) (h : Trace) :
    CrudResult :=
  match logged h (.getTenantContextFromOrgId d.org_id)
      (tmClient.getTenantContextFromOrgId h d.org_id) with
  | (.error err, h) => (.returned (diag.FromErr (some err)), d, h)
  | (.ok tenantContext, h) =>
    match logged h (.CreateContentLibrary (getContentLibraryType d) tenantContext)
        (tmClient.CreateContentLibrary h (getContentLibraryType d) tenantContext) with
    | (.error err, h) => (.returned (diag.FromErr (some err)), d, h)
    | (.ok cl, h) =>
      match setContentLibraryData d cl "resource" with
      | (some err, d) => (.returned (diag.FromErr (some err)), d, h)
      | (none, d) => resourceVcfaContentLibraryRead tmClient d h

/-- Go `resourceVcfaContentLibraryUpdate`. The method `cl.Update` of the client
library dereferences its receiver: on a nil `cl` the call panics. -/
def resourceVcfaContentLibraryUpdate (tmClient : Client) (d : ResourceData) (h : Trace) :
    CrudResult :=
  match logged h (.getTenantContextFromOrgId d.org_id)
      (tmClient.getTenantContextFromOrgId h d.org_id) with
  | (.error err, h) => (.returned (diag.FromErr (some err)), d, h)
  | (.ok tenantContext, h) =>
    match logged h (.GetContentLibraryById d.Id tenantContext)
        (tmClient.GetContentLibraryById h d.Id tenantContext) with
    | (.error err, h) => (.returned (diag.FromErr (some err)), d, h)
    | (.ok none, h) => (.panicked, d, h)
    | (.ok (some cl), h) =>
      match logged h (.Update cl (getContentLibraryType d))
          (tmClient.Update h cl (getContentLibraryType d)) with
      | (.error err, h) => (.returned (diag.FromErr (some err)), d, h)
      | (.ok _, h) => resourceVcfaContentLibraryRead tmClient d h

/-- Go `resourceVcfaContentLibraryDelete`. Reading `cl.ContentLibrary.LibraryType`
panics when `cl` or `cl.ContentLibrary` is nil. -/
def resourceVcfaContentLibraryDelete (tmClient : Client) (d : ResourceData) (h : Trace) :
    CrudResult :=
  match logged h (.getTenantContextFromOrgId d.org_id)
      (tmClient.getTenantContextFromOrgId h d.org_id) with
  | (.error err, h) => (.returned (diag.FromErr (some err)), d, h)
  | (.ok tenantContext, h) =>
    match logged h (.GetContentLibraryById d.Id tenantContext)
        (tmClient.GetContentLibraryById h d.Id tenantContext) with
    | (.error err, h) => (.returned (diag.FromErr (some err)), d, h)
    | (.ok none, h) => (.panicked, d, h)
    | (.ok (some { ContentLibrary := none }), h) => (.panicked, d, h)
    | (.ok (some { ContentLibrary := some l }), h) =>
      let cl : govcd.ContentLibrary := { ContentLibrary := some l }
      let deleteForce := d.delete_force
      let deleteForce := if l.LibraryType ≠ "PROVIDER" then false else deleteForce
      match logged h (.Delete cl deleteForce d.delete_recursive)
          (tmClient.Delete h cl deleteForce d.delete_recursive) with
      | (.error err, h) => (.returned (diag.FromErr (some err)), d, h)
      | (.ok _, h) => (.returned [], d, h)

/-- What the importer leaves: its Go result `([]*schema.ResourceData, error)`,
the resource data and the history of the client. -/
abbrev ImportResult := GoResult (Except Error (List ResourceData)) × ResourceData × Trace

/-- The part of Go `resourceVcfaContentLibraryImport` after the lookups: the
error of the Content Library lookup is wrapped, otherwise the ID, the name and
the organization are written. Reading `cl.ContentLibrary.ID` panics when `cl`
or `cl.ContentLibrary` is nil. -/
def importFinish (d : ResourceData) (h : Trace)
    (r : Except Error (Option govcd.ContentLibrary)) : ImportResult :=
  match r with
  | .error err =>
    (.returned (.error ("error retrieving " ++ labelVcfaContentLibrary ++
      " with identifier \x27" ++ d.Id ++ "\x27: " ++ err)), d, h)
  | .ok none => (.panicked, d, h)
  | .ok (some { ContentLibrary := none }) => (.panicked, d, h)
  | .ok (some { ContentLibrary := some l }) =>
    let d := d.SetId l.ID
    let d := { d with name := l.Name }
    let d := match l.Org with
      | some org => { d with org_id := org.ID }
      | none => d
    (.returned (.ok [d]), d, h)

/-- Go `resourceVcfaContentLibraryImport`. Reading `org.TmOrg.ID` panics when
`org` or `org.TmOrg` is nil. -/
def resourceVcfaContentLibraryImport (g : Globals) (tmClient : Client) (d : ResourceData)
    (h : Trace) : ImportResult :=
  match strings.Split d.Id g.ImportSeparator with
  | [first, second] =>
    if strings.EqualFold first "system" then
      match logged h (.GetContentLibraryByName second none)
          (tmClient.GetContentLibraryByName h second none) with
      | (r, h) => importFinish d h r
    else
      match logged h (.GetTmOrgByName first) (tmClient.GetTmOrgByName h first) with
      | (.error err, h) => (.returned (.error err), d, h)
      | (.ok none, h) => (.panicked, d, h)
      | (.ok (some { TmOrg := none }), h) => (.panicked, d, h)
      | (.ok (some { TmOrg := some org }), h) =>
        let tenantContext : govcd.TenantContext := { OrgId := org.ID, OrgName := org.Name }
        match logged h (.GetContentLibraryByName second (some tenantContext))
            (tmClient.GetContentLibraryByName h second (some tenantContext)) with
        | (r, h) => importFinish d h r
  | _ =>
    (.returned (.error ("invalid import identifier \x27" ++ d.Id ++ "\x27, should be <" ++
      g.labelVcfaOrg ++ " name>" ++ g.ImportSeparator ++ "<" ++ labelVcfaContentLibrary ++
      " name> for Tenant Content Libraries or System" ++ g.ImportSeparator ++ "<" ++
      labelVcfaContentLibrary ++ " name> for Provider Content Libraries")), d, h)

/-! ## Concrete inputs -/

/-- A tenant Content Library as the backend returns it. -/
def sampleLibrary : types.ContentLibrary :=
  { Name := "lib",
    Description := "a library",
    AutoAttach := true,
    StorageClasses := [{ Name := "gold", ID := "urn:sc:1" }],
    SubscriptionConfig := some { SubscriptionUrl := "https://publisher/lib.json", Password := "" },
    ID := "urn:cl:1",
    CreationDate := "2025-01-01T00:00:00Z",
    IsShared := false,
    IsSubscribed := true,
    LibraryType := "TENANT",
    VersionNumber := 1,
    Org := some { Name := "org1", ID := "urn:org:1" } }

/-- The resource data of a subscribed library whose password is `secret`. -/
def sampleData : ResourceData :=
  { Id := "urn:cl:1",
    name := "lib",
    org_id := "urn:org:1",
    delete_force := true,
    delete_recursive := true,
    storage_class_ids := ["urn:sc:1"],
    auto_attach := true,
    creation_date := "",
    description := "a library",
    is_shared := false,
    is_subscribed := false,
    library_type := "",
    subscription_config :=
      [{ subscription_url := "https://publisher/lib.json", password := some "secret" }],
    version_number := 0 }

/-- A tenant context for `org1`. -/
def sampleTenantContext : govcd.TenantContext := { OrgId := "urn:org:1", OrgName := "org1" }

/-- A client every call of which succeeds: every lookup finds `sampleLibrary`
or the organization `org1`. -/
def okClient : Client :=
  { getTenantContextFromOrgId := fun _ _ => .ok (some sampleTenantContext),
    CreateContentLibrary := fun _ _ _ => .ok (some { ContentLibrary := some sampleLibrary }),
    GetContentLibraryById := fun _ _ _ => .ok (some { ContentLibrary := some sampleLibrary }),
    GetContentLibraryByName := fun _ _ _ => .ok (some { ContentLibrary := some sampleLibrary }),
    GetTmOrgByName := fun _ _ => .ok (some { TmOrg := some { ID := "urn:org:1", Name := "org1" } }),
    Update := fun _ _ _ => .ok (some { ContentLibrary := some sampleLibrary }),
    Delete := fun _ _ _ _ => .ok () }

/-- A client whose Content Library lookups answer that the entity is not found
(the library was deleted outside Terraform). -/
def notFoundClient : Client :=
  { okClient with
    GetContentLibraryById := fun _ _ _ => .error "[ENF] entity not found",
    GetContentLibraryByName := fun _ _ _ => .error "[ENF] entity not found" }

/-- A client whose `CreateContentLibrary` fails. -/
def createFailsClient : Client :=
  { okClient with CreateContentLibrary := fun _ _ _ => .error "quota exceeded" }

/-- The package values with the separator `.`. -/
def sampleGlobals : Globals :=
  { ImportSeparator := ".",
    labelVcfaOrg := "Organization",
    labelVcfaContentLibraryItem := "Content Library Item",
    labelVcfaStorageClass := "Storage Class" }

/-! ## Calls and errors -/

/-- Among the calls `new` a function made, a call that returned an error is the
last one, and the function returned the diagnostics of that error. -/
def StopsAtError (new : Trace) (res : GoResult diag.Diagnostics) : Prop :=
  ∀ (pre : Trace) (ev : Event) (post : Trace) (e : Error),
    new = pre ++ ev :: post → ev.err = some e →
      post = [] ∧ res = .returned (diag.FromErr (some e))

/-- The result `r` of a function started with the history `h`: the history it
leaves is `h` followed by the calls it made, and these stop at the first error. -/
def Extends (h : Trace) (r : CrudResult) : Prop :=
  ∃ new : Trace, r.2.2 = h ++ new ∧ StopsAtError new r.1

/-! ## The `strings` functions at the junction of an import identifier -/

namespace strings

/-- The prefix test decides the prefix relation of lists. -/
theorem hasPrefixRunes_iff (s p : List Char) : hasPrefixRunes s p = true ↔ p <+: s := by
  induction p generalizing s with
  | nil => cases s <;> simp [hasPrefixRunes]
  | cons a p ih =>
    cases s with
    | nil => simp [hasPrefixRunes]
    | cons c cs =>
      simp only [hasPrefixRunes, Bool.and_eq_true, beq_iff_eq, ih, List.cons_prefix_cons]
      constructor
      · rintro ⟨h1, h2⟩; exact ⟨h1.symm, h2⟩
      · rintro ⟨h1, h2⟩; exact ⟨h1.symm, h2⟩

/-- A string starts with each of its prefixes. -/
theorem hasPrefixRunes_append (sep n : List Char) : hasPrefixRunes (sep ++ n) sep = true := by
  rw [hasPrefixRunes_iff]; exact List.prefix_append sep n

/-- When the separator does not occur before the junction, its first occurrence
in `o ++ sep ++ n` is at the length of `o`. -/
theorem indexRunes_junction (o sep n : List Char) (hsep : sep ≠ [])
    (ho : indexRunes (o ++ sep.dropLast) sep = none) :
    indexRunes (o ++ sep ++ n) sep = some o.length := by
  induction o with
  | nil =>
    obtain ⟨c, cs, rfl⟩ := List.exists_cons_of_ne_nil hsep
    have := hasPrefixRunes_append (c :: cs) n
    simp only [List.nil_append, List.cons_append] at this ⊢
    simp [indexRunes, this]
  | cons a o ih =>
    have ho2 : indexRunes (a :: (o ++ sep.dropLast)) sep = none := ho
    rw [indexRunes] at ho2
    split at ho2
    · simp at ho2
    · rename_i hp
      simp only [Option.map_eq_none'] at ho2
      have hnp : ¬ hasPrefixRunes (a :: (o ++ sep ++ n)) sep = true := by
        intro hc
        apply hp
        rw [hasPrefixRunes_iff] at hc ⊢
        have h1 : (a :: (o ++ sep.dropLast)) <+: (a :: (o ++ sep ++ n)) := by
          rw [List.cons_prefix_cons]
          refine ⟨rfl, ?_⟩
          rw [List.append_assoc]
          apply (List.prefix_append_right_inj o).2
          exact (List.dropLast_prefix sep).trans (List.prefix_append sep n)
        refine List.prefix_of_prefix_length_le hc h1 ?_
        have : 0 < sep.length := List.length_pos.2 hsep
        simp [List.length_dropLast]
        omega
      show indexRunes (a :: (o ++ sep ++ n)) sep = some (o.length + 1)
      rw [indexRunes, if_neg hnp, ih ho2]
      rfl

/-- A string without the separator counts no occurrence. -/
theorem countLoop_of_none (sep n : List Char) (k : Nat) (hn : indexRunes n sep = none) :
    countLoop sep k n = 0 := by
  cases k <;> simp [countLoop, hn]

/-- When the separator occurs neither before the junction nor in `n`, the
identifier `o ++ sep ++ n` splits into `o` and `n`. -/
theorem genSplit_junction (o sep n : List Char) (hsep : sep ≠ [])
    (ho : indexRunes (o ++ sep.dropLast) sep = none) (hn : indexRunes n sep = none) :
    genSplit (o ++ sep ++ n) sep = [o, n] := by
  have hi := indexRunes_junction o sep n hsep ho
  have hlen : (o ++ sep ++ n).length = (o.length + sep.length - 1 + n.length) + 1 := by
    have : 0 < sep.length := List.length_pos.2 hsep
    simp; omega
  have hdrop : (o ++ sep ++ n).drop (o.length + sep.length) = n := by
    rw [← List.length_append]; exact List.drop_left _ _
  have htake : (o ++ sep ++ n).take o.length = o := by
    rw [List.append_assoc]; exact List.take_left _ _
  have hc : countRunes (o ++ sep ++ n) sep = 1 := by
    unfold countRunes
    rw [if_neg (by simpa using hsep), hlen, countLoop, hi]
    simp only [hdrop, countLoop_of_none sep n _ hn]
  unfold genSplit
  rw [if_neg (by simpa using hsep), hc]
  simp only [splitLoop, hi, hdrop, htake]

/-- The same for `strings.Split` on strings. -/
theorem Split_junction (o sep n : String) (hsep : sep ≠ "")
    (ho : Contains (o ++ String.mk sep.data.dropLast) sep = false)
    (hn : Contains n sep = false) :
    Split (o ++ sep ++ n) sep = [o, n] := by
  have hsep2 : sep.data ≠ [] := by
    intro h; apply hsep; cases sep; simp_all
  have ho2 : indexRunes (o.data ++ sep.data.dropLast) sep.data = none := by
    simpa [Contains, Index, String.data_append] using ho
  have hn2 : indexRunes n.data sep.data = none := by
    simpa [Contains, Index] using hn
  simp only [Split, String.data_append, genSplit_junction o.data sep.data n.data hsep2 ho2 hn2]
  rfl

/-- For a separator of one rune the condition at the junction says that the
first part does not contain the separator. -/
theorem junction_single_rune (o : String) (c : Char) :
    Contains (o ++ String.mk (String.singleton c).data.dropLast) (String.singleton c)
      = Contains o (String.singleton c) := by
  have h : String.mk (String.singleton c).data.dropLast = "" := rfl
  rw [h, String.append_empty]

end strings

/-! ## The schema, `setContentLibraryData` -/

/-- C7. In the schema of `resourceVcfaContentLibrary` the attributes with
`ForceNew` are exactly `org_id`, `auto_attach` and
`subscription_config.subscription_url`; `auto_attach` is optional with the
default `true`; the attributes that are `Computed` and neither `Required` nor
`Optional` are exactly `creation_date`, `is_shared`, `is_subscribed`,
`library_type` and `version_number`; the `Required` top-level attributes are
exactly `name`, `org_id` and `storage_class_ids`. -/
theorem schema_flags (g : Globals) :
    schema.attributesWhere (fun s => s.ForceNew) (resourceVcfaContentLibrary g)
        = ["org_id", "auto_attach", "subscription_config.subscription_url"]
    ∧ (schema.attributeOf (resourceVcfaContentLibrary g) "auto_attach").map
        (fun s => (s.Optional, s.Required, s.Default)) = some (true, false, some (.bool true))
    ∧ schema.attributesWhere (fun s => s.Computed && !s.Required && !s.Optional)
        (resourceVcfaContentLibrary g)
        = ["creation_date", "is_shared", "is_subscribed", "library_type", "version_number"]
    ∧ schema.topLevelWhere (fun s => s.Required) (resourceVcfaContentLibrary g)
        = ["name", "org_id", "storage_class_ids"] :=
  ⟨rfl, rfl, rfl, rfl⟩

/-- C9. For every resource data and origin, `setContentLibraryData` called with
a nil library, or with a library whose inner `ContentLibrary` is nil, returns
the error `provided Content Library is nil` and leaves the resource ID and every
attribute unchanged. -/
theorem setContentLibraryData_nil (d : ResourceData) (origin : String) :
    setContentLibraryData d none origin = (some "provided Content Library is nil", d)
    ∧ setContentLibraryData d (some { ContentLibrary := none }) origin
        = (some "provided Content Library is nil", d) :=
  ⟨rfl, rfl⟩

/-- C8. The password is kept from the current state. When
`subscription_config.0.password` of the resource data is a non-empty string `p`
and the library has a `SubscriptionConfig`, `setContentLibraryData` with the
origin `resource` succeeds and leaves exactly one `subscription_config` block,
whose password is `p` and whose `subscription_url` is the one of the library.
With any other origin it succeeds and the block it writes, if any, carries no
password. -/
theorem setContentLibraryData_password :
    (∀ (d : ResourceData) (l : types.ContentLibrary)
        (sc : types.ContentLibrarySubscriptionConfig) (p : String),
        d.Get_subscription_config_0_password = p → p ≠ "" → l.SubscriptionConfig = some sc →
        ∃ d2, setContentLibraryData d (some { ContentLibrary := some l }) "resource" = (none, d2)
          ∧ d2.subscription_config = [{ subscription_url := sc.SubscriptionUrl, password := some p }])
    ∧ (∀ (d : ResourceData) (l : types.ContentLibrary) (origin : String), origin ≠ "resource" →
        ∃ d2, setContentLibraryData d (some { ContentLibrary := some l }) origin = (none, d2)
          ∧ d2.subscription_config =
            match l.SubscriptionConfig with
            | none => []
            | some sc => [{ subscription_url := sc.SubscriptionUrl, password := none }]) := by
  constructor
  · intro d l sc p hp hne hsc
    refine ⟨_, rfl, ?_⟩
    have hp2 : ∀ (x : ResourceData), x.subscription_config = d.subscription_config →
        x.Get_subscription_config_0_password = p := by
      intro x hx; rw [← hp]; simp [ResourceData.Get_subscription_config_0_password, hx]
    simp only [ResourceData.SetId, hsc]
    rw [hp2]
    · simp [hne]
    · cases l.Org <;> rfl
  · intro d l origin ho
    refine ⟨_, rfl, ?_⟩
    simp only [ResourceData.SetId]
    cases l.SubscriptionConfig <;> simp [ho]

/-- The password `secret` of `sampleData` survives `setContentLibraryData`. -/
theorem setContentLibraryData_password_witness :
    ∃ d2, setContentLibraryData sampleData (some { ContentLibrary := some sampleLibrary }) "resource"
        = (none, d2)
      ∧ d2.subscription_config =
        [{ subscription_url := "https://publisher/lib.json", password := some "secret" }] :=
  setContentLibraryData_password.1 sampleData sampleLibrary
    { SubscriptionUrl := "https://publisher/lib.json", Password := "" } "secret"
    (by decide) (by decide) (by decide)

/-! ## Read and Delete -/

/-- C1. The lookup of `notFoundClient` returns a not-found error. On it
`resourceVcfaContentLibraryRead` sets the resource ID to the empty string, and
then returns the error as a diagnostic of severity `Error`: the Read fails. -/
theorem read_not_found_returns_error :
    govcd.ContainsNotFound (errOf (notFoundClient.GetContentLibraryById
        [{ call := .getTenantContextFromOrgId "urn:org:1", err := none }]
        "urn:cl:1" (some sampleTenantContext))) = true
    ∧ resourceVcfaContentLibraryRead notFoundClient sampleData []
      = (.returned [{ Severity := .Error, Summary := "[ENF] entity not found" }],
         { sampleData with Id := "" },
         [{ call := .getTenantContextFromOrgId "urn:org:1", err := none },
          { call := .GetContentLibraryById "urn:cl:1" (some sampleTenantContext),
            err := some "[ENF] entity not found" }])
    ∧ diag.HasError [{ Severity := .Error, Summary := "[ENF] entity not found" }] = true := by
  refine ⟨by decide, by decide, by decide⟩

/-- Whatever the client: when the tenant context is resolved and the lookup by ID
returns a not-found error, Read clears the resource ID and returns the
diagnostics of that error. -/
theorem read_not_found (c : Client) (d : ResourceData) (h : Trace)
    (ctx : Option govcd.TenantContext) (e : Error)
    (hctx : c.getTenantContextFromOrgId h d.org_id = .ok ctx)
    (hid : d.Id ≠ "")
    (hget : c.GetContentLibraryById
      (h ++ [{ call := .getTenantContextFromOrgId d.org_id, err := none }]) d.Id ctx = .error e)
    (hnf : govcd.ContainsNotFound (some e) = true) :
    resourceVcfaContentLibraryRead c d h
      = (.returned (diag.FromErr (some e)), d.SetId "",
         h ++ [{ call := .getTenantContextFromOrgId d.org_id, err := none }] ++
           [{ call := .GetContentLibraryById d.Id ctx, err := some e }]) := by
  simp [resourceVcfaContentLibraryRead, logged, hctx, errOf, hid, hget, hnf]

/-- C6. When `resourceVcfaContentLibraryDelete` has retrieved the library `l`,
the third call it makes is `cl.Delete(force, recursive)`, where `force` is
true if and only if `delete_force` is true and the `LibraryType` of `l` is
exactly `PROVIDER`, and `recursive` is `delete_recursive`. -/
theorem delete_force_only_for_provider (c : Client) (d : ResourceData) (h : Trace)
    (ctx : Option govcd.TenantContext) (l : types.ContentLibrary)
    (hctx : c.getTenantContextFromOrgId h d.org_id = .ok ctx)
    (hget : c.GetContentLibraryById
        (h ++ [{ call := .getTenantContextFromOrgId d.org_id, err := none }]) d.Id ctx
        = .ok (some { ContentLibrary := some l })) :
    ∃ force : Bool,
      (resourceVcfaContentLibraryDelete c d h).2.2
        = h ++ [{ call := .getTenantContextFromOrgId d.org_id, err := none },
                { call := .GetContentLibraryById d.Id ctx, err := none },
                { call := .Delete { ContentLibrary := some l } force d.delete_recursive,
                  err := errOf (c.Delete
                    (h ++ [{ call := .getTenantContextFromOrgId d.org_id, err := none },
                           { call := .GetContentLibraryById d.Id ctx, err := none }])
                    { ContentLibrary := some l } force d.delete_recursive) }]
      ∧ (force = true ↔ d.delete_force = true ∧ l.LibraryType = "PROVIDER") := by
  by_cases hl : l.LibraryType = "PROVIDER"
  · refine ⟨d.delete_force, ?_, by simp [hl]⟩
    simp only [resourceVcfaContentLibraryDelete, logged, hctx, errOf, hget]
    cases hd : c.Delete _ _ _ _ <;> simp_all
  · refine ⟨false, ?_, by simp [hl]⟩
    simp only [resourceVcfaContentLibraryDelete, logged, hctx, errOf, hget]
    cases hd : c.Delete _ _ _ _ <;> simp_all

/-- Deleting the tenant library `sampleLibrary` with `delete_force` set: the
deletion is not forced. -/
theorem delete_force_only_for_provider_witness :
    ∃ force : Bool,
      (resourceVcfaContentLibraryDelete okClient sampleData []).2.2
        = [] ++ [{ call := .getTenantContextFromOrgId "urn:org:1", err := none },
                { call := .GetContentLibraryById "urn:cl:1" (some sampleTenantContext), err := none },
                { call := .Delete { ContentLibrary := some sampleLibrary } force true,
                  err := none }]
      ∧ (force = true ↔ true = true ∧ "TENANT" = "PROVIDER") :=
  delete_force_only_for_provider okClient sampleData [] (some sampleTenantContext) sampleLibrary
    rfl rfl

/-! ## Import -/

/-- C2. When `strings.Split` of the import identifier on `ImportSeparator` does
not yield exactly two parts, `resourceVcfaContentLibraryImport` returns an
error that starts with `invalid import identifier` and the identifier, returns
no resource data, makes no call on the client and leaves the resource data
unchanged. -/
theorem import_invalid_identifier (g : Globals) (c : Client) (d : ResourceData) (h : Trace)
    (hparts : (strings.Split d.Id g.ImportSeparator).length ≠ 2) :
    ∃ rest : String,
      resourceVcfaContentLibraryImport g c d h
        = (.returned (.error ("invalid import identifier \x27" ++ d.Id ++ "\x27" ++ rest)), d, h) := by
  refine ⟨", should be <" ++ g.labelVcfaOrg ++ " name>" ++ g.ImportSeparator ++ "<" ++
      labelVcfaContentLibrary ++ " name> for Tenant Content Libraries or System" ++
      g.ImportSeparator ++ "<" ++ labelVcfaContentLibrary ++
      " name> for Provider Content Libraries", ?_⟩
  unfold resourceVcfaContentLibraryImport
  split
  · rename_i first second heq
    simp [heq] at hparts
  · simp only [String.append_assoc]
    rfl

/-- The identifier `org1.my.lib` has three parts and is refused. -/
theorem import_invalid_identifier_witness :
    (strings.Split "org1.my.lib" ".").length ≠ 2 ∧
    ∃ rest : String,
      resourceVcfaContentLibraryImport sampleGlobals okClient { sampleData with Id := "org1.my.lib" } []
        = (.returned (.error ("invalid import identifier \x27" ++ "org1.my.lib" ++ "\x27" ++ rest)),
           { sampleData with Id := "org1.my.lib" }, []) :=
  ⟨by decide, import_invalid_identifier sampleGlobals okClient { sampleData with Id := "org1.my.lib" } []
    (by decide)⟩

/-- The last part of the importer makes no call. -/
theorem importFinish_trace (d : ResourceData) (h : Trace)
    (r : Except Error (Option govcd.ContentLibrary)) : (importFinish d h r).2.2 = h := by
  unfold importFinish
  split <;> rfl

/-- C4 (amended). Let `ImportSeparator` be non-empty, `first` equal `system`
ignoring case, `n` not contain the separator, and `first` followed by the
separator without its last rune not contain the separator. Then on the
identifier `first ++ ImportSeparator ++ n` the importer makes exactly one call,
the lookup of the Content Library by name `n` with a nil tenant context; no
organization is looked up. -/
theorem import_provider_library (g : Globals) (c : Client) (d : ResourceData) (h : Trace)
    (first n : String)
    (hsep : g.ImportSeparator ≠ "")
    (hfirst : strings.EqualFold first "system" = true)
    (hjunction : strings.Contains (first ++ String.mk g.ImportSeparator.data.dropLast)
        g.ImportSeparator = false)
    (hn : strings.Contains n g.ImportSeparator = false)
    (hid : d.Id = first ++ g.ImportSeparator ++ n) :
    ∃ new : Trace,
      (resourceVcfaContentLibraryImport g c d h).2.2 = h ++ new
      ∧ new = [{ call := .GetContentLibraryByName n none,
                 err := errOf (c.GetContentLibraryByName h n none) }]
      ∧ ∀ ev ∈ new, ∀ name, ev.call ≠ .GetTmOrgByName name := by
  have hs := strings.Split_junction first g.ImportSeparator n hsep hjunction hn
  refine ⟨_, ?_, rfl, by simp⟩
  simp only [resourceVcfaContentLibraryImport, hid, hs, hfirst, if_true, logged]
  cases c.GetContentLibraryByName h n none with
  | error e => rfl
  | ok cl => rcases cl with _ | ⟨_ | l⟩ <;> rfl

/-- The identifier `SYSTEM.lib`: one lookup, by name `lib`, without tenant context. -/
theorem import_provider_library_witness :
    ∃ new : Trace,
      (resourceVcfaContentLibraryImport sampleGlobals okClient
        { sampleData with Id := "SYSTEM" ++ "." ++ "lib" } []).2.2 = [] ++ new
      ∧ new = [{ call := .GetContentLibraryByName "lib" none, err := none }]
      ∧ ∀ ev ∈ new, ∀ name, ev.call ≠ .GetTmOrgByName name :=
  import_provider_library sampleGlobals okClient { sampleData with Id := "SYSTEM" ++ "." ++ "lib" } []
    "SYSTEM" "lib" (by decide) (by decide) (by decide) (by decide) rfl

/-- C4 as stated fails for the separator `mm`: `lib` does not contain it, but
`System` ++ `mm` ++ `lib` splits into `Syste` and `mlib`, and the importer looks
up the organization `Syste`. -/
theorem import_provider_library_counterexample :
    strings.Contains "lib" "mm" = false
    ∧ (resourceVcfaContentLibraryImport { sampleGlobals with ImportSeparator := "mm" } okClient
        { sampleData with Id := "System" ++ "mm" ++ "lib" } []).2.2
      = [{ call := .GetTmOrgByName "Syste", err := none },
         { call := .GetContentLibraryByName "mlib" (some sampleTenantContext), err := none }] := by
  refine ⟨by decide, by decide⟩

/-- C3 (amended). Let `ImportSeparator` be non-empty, `o` not equal `system`
ignoring case, `n` not contain the separator, and `o` followed by the separator
without its last rune not contain the separator. Then on the identifier
`o ++ ImportSeparator ++ n` the first call of the importer is the lookup of the
organization by name `o`. When it finds an organization, the only other call is
the lookup of the Content Library by name `n` in a tenant context with the ID
and the name of that organization. When that finds a library, the importer
returns exactly one resource data: the given one with the ID and the name of the
library and, when the library has an `Org` reference, the ID of that reference
as `org_id`. -/
theorem import_tenant_library (g : Globals) (c : Client) (d : ResourceData) (h : Trace)
    (o n : String)
    (hsep : g.ImportSeparator ≠ "")
    (hjunction : strings.Contains (o ++ String.mk g.ImportSeparator.data.dropLast)
        g.ImportSeparator = false)
    (hn : strings.Contains n g.ImportSeparator = false)
    (hsys : strings.EqualFold o "system" = false)
    (hid : d.Id = o ++ g.ImportSeparator ++ n) :
    (∃ rest : Trace, (resourceVcfaContentLibraryImport g c d h).2.2
        = h ++ { call := .GetTmOrgByName o, err := errOf (c.GetTmOrgByName h o) } :: rest)
    ∧ ∀ org : types.TmOrg, c.GetTmOrgByName h o = .ok (some { TmOrg := some org }) →
        (resourceVcfaContentLibraryImport g c d h).2.2
          = h ++ [{ call := .GetTmOrgByName o, err := none },
                  { call := .GetContentLibraryByName n (some { OrgId := org.ID, OrgName := org.Name }),
                    err := errOf (c.GetContentLibraryByName
                      (h ++ [{ call := .GetTmOrgByName o, err := none }]) n
                      (some { OrgId := org.ID, OrgName := org.Name })) }]
        ∧ ∀ l : types.ContentLibrary,
            c.GetContentLibraryByName (h ++ [{ call := .GetTmOrgByName o, err := none }]) n
              (some { OrgId := org.ID, OrgName := org.Name })
              = .ok (some { ContentLibrary := some l }) →
            ∃ d2 : ResourceData,
              (resourceVcfaContentLibraryImport g c d h).1 = .returned (.ok [d2])
              ∧ (resourceVcfaContentLibraryImport g c d h).2.1 = d2
              ∧ d2 = { d with
                        Id := l.ID,
                        name := l.Name,
                        org_id := (match l.Org with
                          | some ref => ref.ID
                          | none => d.org_id) } := by
  have hs := strings.Split_junction o g.ImportSeparator n hsep hjunction hn
  constructor
  · simp only [resourceVcfaContentLibraryImport, hid, hs, hsys, logged]
    cases c.GetTmOrgByName h o with
    | error e => exact ⟨[], rfl⟩
    | ok org =>
      rcases org with _ | ⟨_ | org⟩
      · exact ⟨[], rfl⟩
      · exact ⟨[], rfl⟩
      · simp only [Bool.false_eq_true, if_false, importFinish_trace, errOf]
        exact ⟨_, List.append_assoc _ _ _⟩
  · intro org horg
    constructor
    · simp only [resourceVcfaContentLibraryImport, hid, hs, hsys, logged, horg, errOf,
        Bool.false_eq_true, if_false, importFinish_trace]
      simp
    · intro l hl
      refine ⟨_, ?_, ?_, rfl⟩
      · simp only [resourceVcfaContentLibraryImport, hid, hs, hsys, logged, horg, errOf, hl]
        simp only [Bool.false_eq_true, if_false, importFinish, ResourceData.SetId]
        cases l.Org <;> rfl
      · simp only [resourceVcfaContentLibraryImport, hid, hs, hsys, logged, horg, errOf, hl]
        simp only [Bool.false_eq_true, if_false, importFinish, ResourceData.SetId]
        cases l.Org <;> rfl

/-- C3 as stated fails for the separator `aa`: neither `a` nor `b` contains it,
but `a` ++ `aa` ++ `b` splits into the empty string and `ab`, and the importer
looks up the organization with the empty name and the library `ab`. -/
theorem import_tenant_library_counterexample :
    strings.Contains "a" "aa" = false ∧ strings.Contains "b" "aa" = false
    ∧ strings.EqualFold "a" "system" = false
    ∧ (resourceVcfaContentLibraryImport { sampleGlobals with ImportSeparator := "aa" } okClient
        { sampleData with Id := "a" ++ "aa" ++ "b" } []).2.2
      = [{ call := .GetTmOrgByName "", err := none },
         { call := .GetContentLibraryByName "ab" (some sampleTenantContext), err := none }] := by
  refine ⟨by decide, by decide, by decide, by decide⟩

/-- The identifier `org1.lib`: the organization `org1`, then the library `lib`. -/
theorem import_tenant_library_witness :
    (∃ rest : Trace, (resourceVcfaContentLibraryImport sampleGlobals okClient
        { sampleData with Id := "org1" ++ "." ++ "lib" } []).2.2
        = [] ++ { call := .GetTmOrgByName "org1", err := none } :: rest)
    ∧ ∀ org : types.TmOrg,
        okClient.GetTmOrgByName [] "org1" = .ok (some { TmOrg := some org }) →
        (resourceVcfaContentLibraryImport sampleGlobals okClient
          { sampleData with Id := "org1" ++ "." ++ "lib" } []).2.2
          = [] ++ [{ call := .GetTmOrgByName "org1", err := none },
                  { call := .GetContentLibraryByName "lib" (some { OrgId := org.ID, OrgName := org.Name }),
                    err := none }]
        ∧ ∀ l : types.ContentLibrary,
            okClient.GetContentLibraryByName ([] ++ [{ call := .GetTmOrgByName "org1", err := none }]) "lib"
              (some { OrgId := org.ID, OrgName := org.Name })
              = .ok (some { ContentLibrary := some l }) →
            ∃ d2 : ResourceData,
              (resourceVcfaContentLibraryImport sampleGlobals okClient
                { sampleData with Id := "org1" ++ "." ++ "lib" } []).1 = .returned (.ok [d2])
              ∧ (resourceVcfaContentLibraryImport sampleGlobals okClient
                { sampleData with Id := "org1" ++ "." ++ "lib" } []).2.1 = d2
              ∧ d2 = { sampleData with
                        Id := l.ID,
                        name := l.Name,
                        org_id := (match l.Org with
                          | some ref => ref.ID
                          | none => "urn:org:1") } :=
  import_tenant_library sampleGlobals okClient { sampleData with Id := "org1" ++ "." ++ "lib" } []
    "org1" "lib" (by decide) (by decide) (by decide) (by decide) rfl

/-! ## Errors of the client in Create, Update and Delete -/

/-- No call, no error. -/
theorem stopsAtError_nil (res : GoResult diag.Diagnostics) : StopsAtError [] res := by
  intro pre ev post e h _
  simp at h

/-- A single failing call whose error is returned. -/
theorem stopsAtError_error (call : Call) (e : Error) :
    StopsAtError [{ call := call, err := some e }] (.returned (diag.FromErr (some e))) := by
  intro pre ev post e2 h he
  rcases pre with _ | ⟨p, pre⟩
  · simp only [List.nil_append, List.cons.injEq] at h
    obtain ⟨h1, h2⟩ := h
    subst h1
    simp only [Option.some.injEq] at he
    subst he
    exact ⟨h2.symm, rfl⟩
  · simp at h

/-- A call that succeeded in front of calls that stop at the first error. -/
theorem stopsAtError_cons (call : Call) (new : Trace) (res : GoResult diag.Diagnostics)
    (hnew : StopsAtError new res) : StopsAtError ({ call := call, err := none } :: new) res := by
  intro pre ev post e h he
  rcases pre with _ | ⟨p, pre⟩
  · simp only [List.nil_append, List.cons.injEq] at h
    obtain ⟨h1, _⟩ := h
    subst h1
    simp at he
  · simp only [List.cons_append, List.cons.injEq] at h
    exact hnew pre ev post e h.2 he

/-- A function that makes no further call. -/
theorem extends_nil (h : Trace) (res : GoResult diag.Diagnostics) (d : ResourceData) :
    Extends h (res, d, h) := ⟨[], by simp, stopsAtError_nil _⟩

/-- A function that stops on a failing call and returns its error. -/
theorem extends_error (h : Trace) (call : Call) (e : Error) (d : ResourceData) :
    Extends h (.returned (diag.FromErr (some e)), d, h ++ [{ call := call, err := some e }]) :=
  ⟨_, rfl, stopsAtError_error call e⟩

/-- A function that goes on after a call that succeeded. -/
theorem extends_cons (h : Trace) (call : Call) (r : CrudResult)
    (hr : Extends (h ++ [{ call := call, err := none }]) r) : Extends h r := by
  obtain ⟨new, h1, h2⟩ := hr
  exact ⟨_ :: new, by rw [h1, List.append_assoc]; rfl, stopsAtError_cons call new _ h2⟩

/-- Read stops at the first error of the client. -/
theorem read_extends (c : Client) (d : ResourceData) (h : Trace) :
    Extends h (resourceVcfaContentLibraryRead c d h) := by
  unfold resourceVcfaContentLibraryRead logged
  cases c.getTenantContextFromOrgId h d.org_id with
  | error e => exact extends_error _ _ _ _
  | ok ctx =>
    apply extends_cons h (.getTenantContextFromOrgId d.org_id)
    simp only [errOf]
    by_cases hid : d.Id = ""
    · simp only [hid, ne_eq, not_true_eq_false, if_false]
      cases c.GetContentLibraryByName _ d.name ctx with
      | error e => exact extends_error _ _ _ _
      | ok cl =>
        apply extends_cons _ (.GetContentLibraryByName d.name ctx)
        simp only [errOf]
        split <;> exact extends_nil _ _ _
    · simp only [hid, ne_eq, not_false_eq_true, if_true]
      cases c.GetContentLibraryById _ d.Id ctx with
      | error e => exact extends_error _ _ _ _
      | ok cl =>
        apply extends_cons _ (.GetContentLibraryById d.Id ctx)
        simp only [errOf]
        split <;> exact extends_nil _ _ _

/-- Create stops at the first error of the client. -/
theorem create_extends (c : Client) (d : ResourceData) (h : Trace) :
    Extends h (resourceVcfaContentLibraryCreate c d h) := by
  unfold resourceVcfaContentLibraryCreate logged
  cases c.getTenantContextFromOrgId h d.org_id with
  | error e => exact extends_error _ _ _ _
  | ok ctx =>
    apply extends_cons h (.getTenantContextFromOrgId d.org_id)
    simp only [errOf]
    cases c.CreateContentLibrary _ (getContentLibraryType d) ctx with
    | error e => exact extends_error _ _ _ _
    | ok cl =>
      apply extends_cons _ (.CreateContentLibrary (getContentLibraryType d) ctx)
      simp only [errOf]
      split
      · exact extends_nil _ _ _
      · exact read_extends _ _ _

/-- Update stops at the first error of the client. -/
theorem update_extends (c : Client) (d : ResourceData) (h : Trace) :
    Extends h (resourceVcfaContentLibraryUpdate c d h) := by
  unfold resourceVcfaContentLibraryUpdate logged
  cases c.getTenantContextFromOrgId h d.org_id with
  | error e => exact extends_error _ _ _ _
  | ok ctx =>
    apply extends_cons h (.getTenantContextFromOrgId d.org_id)
    simp only [errOf]
    cases c.GetContentLibraryById _ d.Id ctx with
    | error e => exact extends_error _ _ _ _
    | ok cl =>
      apply extends_cons _ (.GetContentLibraryById d.Id ctx)
      simp only [errOf]
      cases cl with
      | none => exact extends_nil _ _ _
      | some cl =>
        simp only []
        cases c.Update _ cl (getContentLibraryType d) with
        | error e => exact extends_error _ _ _ _
        | ok r =>
          apply extends_cons _ (.Update cl (getContentLibraryType d))
          exact read_extends _ _ _

/-- Delete stops at the first error of the client. -/
theorem delete_extends (c : Client) (d : ResourceData) (h : Trace) :
    Extends h (resourceVcfaContentLibraryDelete c d h) := by
  unfold resourceVcfaContentLibraryDelete logged
  cases c.getTenantContextFromOrgId h d.org_id with
  | error e => exact extends_error _ _ _ _
  | ok ctx =>
    apply extends_cons h (.getTenantContextFromOrgId d.org_id)
    simp only [errOf]
    cases c.GetContentLibraryById _ d.Id ctx with
    | error e => exact extends_error _ _ _ _
    | ok cl =>
      apply extends_cons _ (.GetContentLibraryById d.Id ctx)
      simp only [errOf]
      rcases cl with _ | ⟨_ | l⟩
      · exact extends_nil _ _ _
      · exact extends_nil _ _ _
      · simp only []
        cases c.Delete _ _ _ _ with
        | error e => exact extends_error _ _ _ _
        | ok r =>
          apply extends_cons _ (.Delete _ _ _)
          exact extends_nil _ _ _

/-- C5. For each of Create, Update and Delete and every behaviour of the client:
the history after the function is the history before it followed by the calls
it made, and when one of these calls returned an error, it is the last call made
and the function returns the diagnostics of that error. In particular, when the
tenant context is resolved and `GetContentLibraryById` fails, Update and Delete
make these two calls only: neither `cl.Update` nor `cl.Delete` is called. -/
theorem crud_stops_at_first_error (c : Client) (d : ResourceData) (h : Trace) :
    (∀ op ∈ [resourceVcfaContentLibraryCreate, resourceVcfaContentLibraryUpdate,
            resourceVcfaContentLibraryDelete],
      ∃ new : Trace, (op c d h).2.2 = h ++ new
        ∧ ∀ (pre : Trace) (ev : Event) (post : Trace) (e : Error),
            new = pre ++ ev :: post → ev.err = some e →
              post = [] ∧ (op c d h).1 = .returned (diag.FromErr (some e)))
    ∧ ∀ (ctx : Option govcd.TenantContext) (e : Error),
        c.getTenantContextFromOrgId h d.org_id = .ok ctx →
        c.GetContentLibraryById
          (h ++ [{ call := .getTenantContextFromOrgId d.org_id, err := none }]) d.Id ctx
          = .error e →
        (resourceVcfaContentLibraryUpdate c d h).2.2
          = h ++ [{ call := .getTenantContextFromOrgId d.org_id, err := none },
                  { call := .GetContentLibraryById d.Id ctx, err := some e }]
        ∧ (resourceVcfaContentLibraryDelete c d h).2.2
          = h ++ [{ call := .getTenantContextFromOrgId d.org_id, err := none },
                  { call := .GetContentLibraryById d.Id ctx, err := some e }] := by
  constructor
  · intro op hop
    simp only [List.mem_cons, List.mem_singleton, List.not_mem_nil, or_false] at hop
    rcases hop with rfl | rfl | rfl
    · exact create_extends c d h
    · exact update_extends c d h
    · exact delete_extends c d h
  · intro ctx e hctx hget
    constructor
    · simp [resourceVcfaContentLibraryUpdate, logged, hctx, hget, errOf]
    · simp [resourceVcfaContentLibraryDelete, logged, hctx, hget, errOf]

/-- Create against a client whose `CreateContentLibrary` fails: the tenant
context is resolved, the creation fails, nothing else is called and the error is
returned. -/
theorem crud_stops_at_first_error_witness :
    (∃ new : Trace,
        (resourceVcfaContentLibraryCreate createFailsClient sampleData []).2.2 = [] ++ new
        ∧ ∀ (pre : Trace) (ev : Event) (post : Trace) (e : Error),
            new = pre ++ ev :: post → ev.err = some e →
              post = [] ∧ (resourceVcfaContentLibraryCreate createFailsClient sampleData []).1
                = .returned (diag.FromErr (some e)))
    ∧ resourceVcfaContentLibraryCreate createFailsClient sampleData []
      = (.returned [{ Severity := .Error, Summary := "quota exceeded" }], sampleData,
         [{ call := .getTenantContextFromOrgId "urn:org:1", err := none },
          { call := .CreateContentLibrary (getContentLibraryType sampleData)
              (some sampleTenantContext), err := some "quota exceeded" }]) :=
  ⟨(crud_stops_at_first_error createFailsClient sampleData []).1
      resourceVcfaContentLibraryCreate (by simp), by decide⟩

end vcfa
